import Mathlib

/-!
Shallow embedding of the deterministic simulation core of `src/flappy_bird.py`
(a Flappy-Bird style arcade game), together with theorems settling the spec's
claims about it.

Python floats are modelled as exact rationals (`ℚ`), Python ints as `ℤ`/`ℕ`.
Python's `int(...)` truncation toward zero is modelled by `pyInt`.
`random.randint a b` (Python standard library, uniform on the inclusive range
`[a, b]`) is modelled by its documented contract: an arbitrary draw `r : ℕ`
is mapped into the range as `a + r % (b - a + 1)`.
-/

namespace FlappyBird

/-- Constants from the top of `flappy_bird.py`. -/
def WIDTH : ℤ := 400

def HEIGHT : ℤ := 600

def PIPE_GAP : ℤ := 160

def PIPE_WIDTH : ℤ := 70

def PIPE_SPEED : ℤ := 3

def BIRD_RADIUS : ℤ := 18

def BIRD_X : ℤ := 80

def GRAVITY : ℚ := 0.35

def FLAP_STRENGTH : ℚ := -7.5

def BASE_HEIGHT : ℤ := 80

/-- The fall-speed cap (`self.velocity = min(self.velocity, 10)` in
`Bird.update`). -/
def FALL_CAP : ℚ := 10

/-- Nose-up angle bound (`max(-25, ...)` in `Bird.update`); the spec calls the
magnitude `NOSE_UP_MAX = 25`, the code uses the signed bound `-25`. -/
def NOSE_UP_MAX : ℚ := 25

/-- Nose-down angle bound (`min(90, ...)` in `Bird.update`). -/
def NOSE_DOWN_MAX : ℚ := 90

/-- Per-tick rotation toward nose-up (`self.angle - 5`). -/
def TILT_UP_RATE : ℚ := 5

/-- Per-tick rotation toward nose-down (`self.angle + 3`). -/
def TILT_DOWN_RATE : ℚ := 3

/-- Python `int(...)` applied to a float: truncation toward zero. -/
def pyInt (q : ℚ) : ℤ := if 0 ≤ q then ⌊q⌋ else ⌈q⌉

/-- The simulation state of the `Bird` dataclass (the sound handle is an
external collaborator and carries no simulation state). -/
structure Bird where
  x : ℚ
  y : ℚ
  velocity : ℚ
  angle : ℚ
  alive : Bool
deriving DecidableEq

/-- `Bird.flap`: `if self.alive: self.velocity = FLAP_STRENGTH` (the sound
play is external). -/
def Bird.flap (b : Bird) : Bird :=
  if b.alive then { b with velocity := FLAP_STRENGTH } else b

/-- `Bird.update`: gravity integration, position update with the unclamped
velocity, fall-speed clamp, then tilt based on the (clamped) velocity. -/
def Bird.update (b : Bird) : Bird :=
  let v1 := b.velocity + GRAVITY
  let y1 := b.y + v1
  let v2 := min v1 FALL_CAP
  let a1 := if v2 < 0 then max (-25) (b.angle - TILT_UP_RATE)
            else min 90 (b.angle + TILT_DOWN_RATE)
  ⟨b.x, y1, v2, a1, b.alive⟩

/-- Integer rectangle, as built by `pygame.Rect(x, y, w, h)`. -/
structure PgRect where
  x : ℤ
  y : ℤ
  w : ℤ
  h : ℤ
deriving DecidableEq

/-- `pygame.Rect.colliderect`: zero-sized rectangles collide with nothing;
otherwise the normalized extents must strictly overlap on both axes. -/
def PgRect.colliderect (a b : PgRect) : Bool :=
  if a.w = 0 ∨ a.h = 0 ∨ b.w = 0 ∨ b.h = 0 then false
  else
    decide (min a.x (a.x + a.w) < max b.x (b.x + b.w)) &&
    decide (min a.y (a.y + a.h) < max b.y (b.y + b.h)) &&
    decide (max a.x (a.x + a.w) > min b.x (b.x + b.w)) &&
    decide (max a.y (a.y + a.h) > min b.y (b.y + b.h))

/-- `Bird.rect`: `pygame.Rect(int(x - BIRD_RADIUS), int(y - BIRD_RADIUS),
BIRD_RADIUS * 2, BIRD_RADIUS * 2)`. -/
def Bird.rect (b : Bird) : PgRect :=
  ⟨pyInt (b.x - 18), pyInt (b.y - 18), 36, 36⟩

/-- The simulation state of the `Pipe` dataclass. -/
structure Pipe where
  x : ℚ
  gap_y : ℚ
  passed : Bool
deriving DecidableEq

/-- `Pipe.top_rect`: `pygame.Rect(int(x), 0, PIPE_WIDTH,
int(gap_y - PIPE_GAP / 2))`. -/
def Pipe.top_rect (p : Pipe) : PgRect :=
  ⟨pyInt p.x, 0, 70, pyInt (p.gap_y - 80)⟩

/-- `Pipe.bottom_rect`: `pygame.Rect(int(x), int(gap_y + PIPE_GAP / 2),
PIPE_WIDTH, HEIGHT - BASE_HEIGHT - int(gap_y + PIPE_GAP / 2))`. -/
def Pipe.bottom_rect (p : Pipe) : PgRect :=
  ⟨pyInt p.x, pyInt (p.gap_y + 80), 70, 520 - pyInt (p.gap_y + 80)⟩

/-- `Pipe.update`: `self.x -= PIPE_SPEED`. -/
def Pipe.update (p : Pipe) : Pipe :=
  { p with x := p.x - 3 }

/-- `Pipe.is_offscreen`: `self.x + PIPE_WIDTH < 0`. -/
def Pipe.is_offscreen (p : Pipe) : Bool :=
  decide (p.x + 70 < 0)

/-- `spawn_pipe`: gap center drawn by `random.randint(margin + PIPE_GAP // 2,
HEIGHT - BASE_HEIGHT - margin - PIPE_GAP // 2)` with `margin = 70`, i.e.
uniformly from the inclusive integer range `[150, 370]` (221 values); the
draw is modelled by `r % 221`. The pipe starts at `x = WIDTH`. -/
def spawn_pipe (r : ℕ) : Pipe :=
  ⟨400, ((150 + r % 221 : ℕ) : ℚ), false⟩

/-- `check_collision`: world bounds first (ceiling `y - RADIUS ≤ 0`, floor
`y + RADIUS ≥ HEIGHT - BASE_HEIGHT`), then the bird's rect against each
pipe's top and bottom rects. -/
def check_collision (b : Bird) (pipes : List Pipe) : Bool :=
  if b.y - 18 ≤ 0 ∨ b.y + 18 ≥ 520 then true
  else pipes.any fun p =>
    b.rect.colliderect p.top_rect || b.rect.colliderect p.bottom_rect

/-- The `Base` (scrolling ground) object: `y`, two segment offsets, and the
stored `speed = PIPE_SPEED`. -/
structure Base where
  y : ℤ
  x1 : ℤ
  x2 : ℤ
  speed : ℤ
deriving DecidableEq

/-- `Base.__init__(y)`: segments at `0` and `WIDTH`. -/
def Base.init (y : ℤ) : Base := ⟨y, 0, 400, 3⟩

/-- `Base.update`: both segments scroll left by `speed`; a segment whose
right edge has crossed the left world boundary is teleported to follow the
other segment. The second `if` reads the possibly-reassigned `x1`, exactly
as the Python statements do. -/
def Base.update (b : Base) : Base :=
  let x1 := b.x1 - b.speed
  let x2 := b.x2 - b.speed
  let x1 := if x1 + 400 < 0 then x2 + 400 else x1
  let x2 := if x2 + 400 < 0 then x1 + 400 else x2
  ⟨b.y, x1, x2, b.speed⟩

/-- `reset_game`: fresh bird at `(BIRD_X, HEIGHT / 2)`, one fresh pipe,
score `0`, fresh base at `HEIGHT - BASE_HEIGHT`. -/
def reset_game (r : ℕ) : Bird × List Pipe × ℕ × Base :=
  (⟨80, 300, 0, 0, true⟩, [spawn_pipe r], 0, Base.init 520)

/-- `if score > high_score: high_score = score` from the collision branch of
the main loop. -/
def update_high (high score : ℕ) : ℕ :=
  if score > high then score else high

/-- The scoring loop of the main loop:
`for pipe in pipes: if not pipe.passed and pipe.x + PIPE_WIDTH < bird.x:
pipe.passed = True; score += 1`, with `bx` the bird's (fixed) `x`. -/
def score_pipes (bx : ℚ) : List Pipe → ℕ → List Pipe × ℕ
  | [], score => ([], score)
  | p :: ps, score =>
    if p.passed = false ∧ p.x + 70 < bx then
      let rest := score_pipes bx ps (score + 1)
      ({ p with passed := true } :: rest.1, rest.2)
    else
      let rest := score_pipes bx ps score
      (p :: rest.1, rest.2)

/-- `for pipe in pipes: pipe.update()`. -/
def advance_pipes (pipes : List Pipe) : List Pipe :=
  pipes.map Pipe.update

/-- `if pipes[-1].x < WIDTH - 200: pipes.append(spawn_pipe())`. Python
raises on an empty list; the `none` branch is unreachable in the reachable
states considered below. -/
def spawn_step (pipes : List Pipe) (r : ℕ) : List Pipe :=
  match pipes.getLast? with
  | some last => if last.x < 200 then pipes ++ [spawn_pipe r] else pipes
  | none => pipes

/-- `pipes = [pipe for pipe in pipes if not pipe.is_offscreen()]`. -/
def evict (pipes : List Pipe) : List Pipe :=
  pipes.filter fun p => !p.is_offscreen

/-- The pipe list after advancing and (possibly) spawning, i.e. the list the
eviction filter is applied to. -/
def pre_evict (pipes : List Pipe) (r : ℕ) : List Pipe :=
  spawn_step (advance_pipes pipes) r

/-- One `Playing` tick of the main loop, restricted to the pipe list and the
current score (the bird's `x` is the constant `BIRD_X = 80`, never written):
advance, spawn, evict, then score. -/
def tick_pipes (st : List Pipe × ℕ) (r : ℕ) : List Pipe × ℕ :=
  score_pipes 80 (evict (pre_evict st.1 r)) st.2

/-- The pipe list and score after `n` `Playing` ticks from a fresh run,
`seeds` supplying each tick's random draw (`seeds 0` is the initial spawn's,
`seeds (n+1)` is tick `n+1`'s). -/
def pipes_at (seeds : ℕ → ℕ) : ℕ → List Pipe × ℕ
  | 0 => ([spawn_pipe (seeds 0)], 0)
  | n + 1 => tick_pipes (pipes_at seeds n) (seeds (n + 1))

/-- The ground after `n` ticks (constructed as `Base(HEIGHT - BASE_HEIGHT)`). -/
def base_at (n : ℕ) : Base := (Base.update)^[n] (Base.init 520)

/-- Inductive invariant of the ground scroller: the stored speed is `3`, the
segments are exactly `WIDTH` apart, and the left segment's offset lies in
`[-WIDTH, 0]`. -/
def BaseInv (b : Base) : Prop :=
  b.speed = 3 ∧
  ((b.x2 - b.x1 = 400 ∧ -400 ≤ b.x1 ∧ b.x1 ≤ 0) ∨
   (b.x1 - b.x2 = 400 ∧ -400 ≤ b.x2 ∧ b.x2 ≤ 0))

/-- The collision predicate as claim C3 words it: exact (untruncated)
geometry — the bird's axis-aligned square of half-extent `RADIUS` centered at
`(x, y)` against the pipe's top span `[0, gap_y - gap/2]` and bottom span
`[gap_y + gap/2, world_height - ground_height]`, strict overlap on both
axes — plus the ceiling and floor checks. -/
def collides_spec (b : Bird) (pipes : List Pipe) : Prop :=
  b.y - 18 ≤ 0 ∨ b.y + 18 ≥ 520 ∨
  ∃ p ∈ pipes,
    (b.x - 18 < p.x + 70 ∧ p.x < b.x + 18 ∧ b.y - 18 < p.gap_y - 80 ∧ 0 < b.y + 18) ∨
    (b.x - 18 < p.x + 70 ∧ p.x < b.x + 18 ∧ b.y - 18 < 520 ∧ p.gap_y + 80 < b.y + 18)

/-- Holds when every pipe already strictly behind the bird's fixed `x`
(right edge left of `bx`) carries `passed = true`. -/
def scored_behind (bx : ℚ) (pipes : List Pipe) : Bool :=
  pipes.all fun p => !decide (p.x + 70 < bx) || p.passed

lemma update_velocity_eq (b : Bird) :
    b.update.velocity = min (b.velocity + GRAVITY) FALL_CAP := rfl

lemma min_cap_step (a g c : ℚ) (hg : 0 ≤ g) :
    min (min a c + g) c = min (a + g) c := by
  rcases le_total a c with h | h
  · rw [min_eq_left h]
  · rw [min_eq_right h, min_eq_right (by linarith : c ≤ c + g),
      min_eq_right (by linarith : c ≤ a + g)]

lemma velocity_after (b : Bird) (h0 : b.velocity = 0) (N : ℕ) :
    ((Bird.update)^[N] b).velocity = min (GRAVITY * N) FALL_CAP := by
  induction N with
  | zero => simp [h0, GRAVITY, FALL_CAP]
  | succ n ih =>
    rw [Function.iterate_succ_apply', update_velocity_eq, ih,
      min_cap_step _ _ _ (by norm_num [GRAVITY])]
    push_cast
    ring_nf

lemma update_y_eq (b : Bird) : b.update.y = b.y + (b.velocity + GRAVITY) := rfl

lemma uncapped_phase (b : Bird) (h0 : b.velocity = 0) :
    ∀ N : ℕ, GRAVITY * N ≤ FALL_CAP →
      ((Bird.update)^[N] b).velocity = GRAVITY * N ∧
      ((Bird.update)^[N] b).y = b.y + GRAVITY * (N * (N + 1) / 2) := by
  intro N
  induction N with
  | zero => intro _; simp [h0]
  | succ n ih =>
    intro hN
    have hcast : ((n + 1 : ℕ) : ℚ) = (n : ℚ) + 1 := by push_cast; ring
    have hn : GRAVITY * n ≤ FALL_CAP := by
      have hg : (0 : ℚ) ≤ GRAVITY := by norm_num [GRAVITY]
      have : GRAVITY * n ≤ GRAVITY * ((n : ℚ) + 1) := by nlinarith
      calc GRAVITY * n ≤ GRAVITY * ((n : ℚ) + 1) := this
        _ = GRAVITY * ((n + 1 : ℕ) : ℚ) := by rw [hcast]
        _ ≤ FALL_CAP := hN
    obtain ⟨hv, hy⟩ := ih hn
    have hv1 : ((Bird.update)^[n] b).velocity + GRAVITY = GRAVITY * ((n + 1 : ℕ) : ℚ) := by
      rw [hv, hcast]; ring
    constructor
    · rw [Function.iterate_succ_apply', update_velocity_eq, hv1,
        min_eq_left (hv1 ▸ hv1.symm ▸ hN)]
    · rw [Function.iterate_succ_apply', update_y_eq, hv, hy, hcast]
      ring

/-- Claim C2: A freshly constructed bird (velocity 0) that receives no flap and
is updated `N` times has `velocity(N) = min(GRAVITY·N, FALL_CAP)` exactly, and
after 10 ticks its `y` has increased by `Σᵢ₌₁¹⁰ i·GRAVITY = 55·GRAVITY`. -/
theorem gravity_integration_law (N : ℕ) :
    ((Bird.update)^[N] (reset_game 0).1).velocity = min (GRAVITY * N) FALL_CAP ∧
    ((Bird.update)^[10] (reset_game 0).1).y = (reset_game 0).1.y + GRAVITY * 55 := by
  refine ⟨velocity_after _ rfl N, ?_⟩
  have h := (uncapped_phase (reset_game 0).1 rfl 10 (by norm_num [GRAVITY, FALL_CAP])).2
  rw [h]
  norm_num

/-- Claim C7: After every bird update the velocity is at most `FALL_CAP`; if the
angle started in `[-25, 90]` it stays there; when the (post-update) velocity is
negative the angle is `max (-25) (angle - TILT_UP_RATE)`, otherwise
`min 90 (angle + TILT_DOWN_RATE)`; and the up-tilt rate is strictly faster than
the down-tilt rate. -/
theorem bird_update_bounds_and_tilt (b : Bird)
    (h1 : -25 ≤ b.angle) (h2 : b.angle ≤ 90) :
    b.update.velocity ≤ FALL_CAP ∧
    (-25 ≤ b.update.angle ∧ b.update.angle ≤ 90) ∧
    (b.update.velocity < 0 → b.update.angle = max (-25) (b.angle - TILT_UP_RATE)) ∧
    (0 ≤ b.update.velocity → b.update.angle = min 90 (b.angle + TILT_DOWN_RATE)) ∧
    TILT_DOWN_RATE < TILT_UP_RATE := by
  have hv : b.update.velocity = min (b.velocity + GRAVITY) FALL_CAP := rfl
  have ha : b.update.angle =
      if min (b.velocity + GRAVITY) FALL_CAP < 0
      then max (-25) (b.angle - TILT_UP_RATE)
      else min 90 (b.angle + TILT_DOWN_RATE) := rfl
  refine ⟨hv ▸ min_le_right _ _, ?_, ?_, ?_, by norm_num [TILT_DOWN_RATE, TILT_UP_RATE]⟩
  · rw [ha]
    split_ifs
    · constructor
      · exact le_max_left _ _
      · exact max_le (by norm_num) (by unfold TILT_UP_RATE; linarith)
    · constructor
      · exact le_min (by norm_num) (by unfold TILT_DOWN_RATE; linarith)
      · exact min_le_left _ _
  · intro hneg
    rw [ha, if_pos (hv ▸ hneg)]
  · intro hpos
    rw [ha, if_neg (not_lt.mpr (hv ▸ hpos))]

/-- Witness for `bird_update_bounds_and_tilt` at the fresh bird. -/
theorem bird_update_bounds_and_tilt_witness :
    ((-25 ≤ (Bird.mk 80 300 0 0 true).angle ∧ (Bird.mk 80 300 0 0 true).angle ≤ 90) ∧
      ((Bird.mk 80 300 0 0 true).update.velocity ≤ FALL_CAP ∧
      (-25 ≤ (Bird.mk 80 300 0 0 true).update.angle ∧
        (Bird.mk 80 300 0 0 true).update.angle ≤ 90) ∧
      ((Bird.mk 80 300 0 0 true).update.velocity < 0 →
        (Bird.mk 80 300 0 0 true).update.angle =
          max (-25) ((Bird.mk 80 300 0 0 true).angle - TILT_UP_RATE)) ∧
      (0 ≤ (Bird.mk 80 300 0 0 true).update.velocity →
        (Bird.mk 80 300 0 0 true).update.angle =
          min 90 ((Bird.mk 80 300 0 0 true).angle + TILT_DOWN_RATE)) ∧
      TILT_DOWN_RATE < TILT_UP_RATE)) :=
  ⟨⟨by norm_num, by norm_num⟩,
    bird_update_bounds_and_tilt (Bird.mk 80 300 0 0 true) (by norm_num) (by norm_num)⟩

/-- Claim C8: `flap` sets the velocity to exactly `FLAP_STRENGTH = -7.5` when the
bird is alive and is a no-op otherwise; no other field ever changes. -/
theorem flap_override_or_noop (b : Bird) :
    b.flap = ⟨b.x, b.y, if b.alive then FLAP_STRENGTH else b.velocity,
      b.angle, b.alive⟩ := by
  cases b with
  | mk x y v a al => cases al <;> simp [Bird.flap]

lemma score_pipes_fst (bx : ℚ) (pipes : List Pipe) (s : ℕ) :
    (score_pipes bx pipes s).1 =
      pipes.map fun p => ⟨p.x, p.gap_y, p.passed || decide (p.x + 70 < bx)⟩ := by
  induction pipes generalizing s with
  | nil => rfl
  | cons p ps ih =>
    obtain ⟨px, pg, pp⟩ := p
    by_cases h : pp = false ∧ px + 70 < bx
    · obtain ⟨h1, h2⟩ := h
      subst h1
      simp [score_pipes, h2, ih]
    · rw [score_pipes, if_neg h]
      cases pp with
      | false =>
        have hc : ¬ (px + 70 < bx) := fun hc => h ⟨rfl, hc⟩
        simp [ih, hc]
      | true => simp [ih]

lemma score_pipes_snd (bx : ℚ) (pipes : List Pipe) (s : ℕ) :
    (score_pipes bx pipes s).2 =
      s + (pipes.filter fun p => !p.passed && decide (p.x + 70 < bx)).length := by
  induction pipes generalizing s with
  | nil => rfl
  | cons p ps ih =>
    obtain ⟨px, pg, pp⟩ := p
    by_cases h : pp = false ∧ px + 70 < bx
    · obtain ⟨h1, h2⟩ := h
      subst h1
      rw [score_pipes, if_pos ⟨rfl, h2⟩]
      simp [ih, List.filter, h2]
      omega
    · rw [score_pipes, if_neg h]
      cases pp with
      | false =>
        have hc : ¬ (px + 70 < bx) := fun hc => h ⟨rfl, hc⟩
        simp [ih, List.filter, hc]
      | true => simp [ih, List.filter]

/-- Claim C1: One pass of the scoring loop maps each pipe's `passed` flag to
`passed || (x + PIPE_WIDTH < bird.x)` — so a set flag is never reset, and a
pipe transitions exactly when its right edge is strictly left of the bird's
`x` — and increments the score by exactly the number of pipes whose flag
transitions in this pass (one per newly passed pipe, no double counting).
The last conjunct: the trigger condition persists as the pipe advances, so
the transition happens on the first tick the condition holds. -/
theorem score_pipes_transition_and_count (bx : ℚ) (pipes : List Pipe) (score : ℕ) :
    (score_pipes bx pipes score).1 =
      (pipes.map fun p => ⟨p.x, p.gap_y, p.passed || decide (p.x + 70 < bx)⟩) ∧
    (score_pipes bx pipes score).2 =
      score + (pipes.filter fun p => !p.passed && decide (p.x + 70 < bx)).length ∧
    (∀ p : Pipe, p.x + 70 < bx → p.update.x + 70 < bx) :=
  ⟨score_pipes_fst bx pipes score, score_pipes_snd bx pipes score,
    fun p h => by
      show p.x - 3 + 70 < bx
      linarith⟩

lemma pyInt_intCast (n : ℤ) : pyInt ((n : ℚ)) = n := by
  unfold pyInt
  split_ifs <;> simp

/-- Claim C4: Every spawned pipe's gap center lies in `[150, 370]`
(`margin + gap/2` to `world_height - ground_height - margin - gap/2`), and
both its top and bottom rectangles have strictly positive height. -/
theorem spawn_pipe_gap_range (r : ℕ) :
    150 ≤ (spawn_pipe r).gap_y ∧ (spawn_pipe r).gap_y ≤ 370 ∧
    0 < (spawn_pipe r).top_rect.h ∧ 0 < (spawn_pipe r).bottom_rect.h := by
  obtain ⟨m, hm, hmlt⟩ : ∃ m : ℕ, (spawn_pipe r).gap_y = ((150 + m : ℕ) : ℚ) ∧ m < 221 :=
    ⟨r % 221, rfl, Nat.mod_lt r (by norm_num)⟩
  have hmQ : (m : ℚ) ≤ 220 := by exact_mod_cast Nat.le_of_lt_succ hmlt
  have hmZ : (m : ℤ) ≤ 220 := by exact_mod_cast Nat.le_of_lt_succ hmlt
  have hm0 : (0 : ℚ) ≤ (m : ℚ) := Nat.cast_nonneg _
  have hq : (spawn_pipe r).gap_y = 150 + (m : ℚ) := by
    rw [hm]
    push_cast
    ring
  have h2 : (spawn_pipe r).top_rect.h = 70 + (m : ℤ) := by
    show pyInt ((spawn_pipe r).gap_y - 80) = 70 + (m : ℤ)
    rw [hq]
    have e : (150 : ℚ) + (m : ℚ) - 80 = (((70 + (m : ℤ) : ℤ)) : ℚ) := by
      push_cast
      ring
    rw [e, pyInt_intCast]
  have h3 : (spawn_pipe r).bottom_rect.h = 520 - (230 + (m : ℤ)) := by
    show 520 - pyInt ((spawn_pipe r).gap_y + 80) = 520 - (230 + (m : ℤ))
    rw [hq]
    have e : (150 : ℚ) + (m : ℚ) + 80 = (((230 + (m : ℤ) : ℤ)) : ℚ) := by
      push_cast
      ring
    rw [e, pyInt_intCast]
  refine ⟨by rw [hq]; linarith, by rw [hq]; linarith, by rw [h2]; positivity, ?_⟩
  rw [h3]
  omega

/-- Claim C6: A `GameOver → Playing` reset rebuilds the bird at
`(BIRD_X, HEIGHT/2)` with velocity 0, angle 0, alive; exactly one freshly
spawned pipe at `x = WIDTH` with `passed = false`; score 0; and the ground
segments at `0` and `WIDTH` — identical to initial construction (which is the
same `reset_game` call). The high score is not part of `reset_game`'s result
and its only update, `update_high`, is monotonically non-decreasing. -/
theorem reset_roundtrip_spec (r h s : ℕ) :
    (reset_game r).1 = ⟨80, 300, 0, 0, true⟩ ∧
    (reset_game r).2.1 = [spawn_pipe r] ∧
    (spawn_pipe r).x = 400 ∧ (spawn_pipe r).passed = false ∧
    (reset_game r).2.2.1 = 0 ∧
    (reset_game r).2.2.2 = Base.init 520 ∧
    Base.init 520 = ⟨520, 0, 400, 3⟩ ∧
    h ≤ update_high h s ∧ update_high h s = max h s := by
  refine ⟨rfl, rfl, rfl, rfl, rfl, rfl, rfl, ?_, ?_⟩
  · unfold update_high
    split_ifs <;> omega
  · unfold update_high
    split_ifs <;> omega

lemma base_update_eq (b : Base) (hs : b.speed = 3) :
    b.update = ⟨b.y,
      (if b.x1 - 3 + 400 < 0 then (b.x2 - 3) + 400 else b.x1 - 3),
      (if b.x2 - 3 + 400 < 0
        then (if b.x1 - 3 + 400 < 0 then (b.x2 - 3) + 400 else b.x1 - 3) + 400
        else b.x2 - 3), 3⟩ := by
  simp only [Base.update, hs]

lemma base_inv_step (b : Base) (hb : BaseInv b) : BaseInv b.update := by
  obtain ⟨hs, hcase⟩ := hb
  rw [base_update_eq b hs]
  refine ⟨rfl, ?_⟩
  rcases hcase with ⟨hd, hl, hu⟩ | ⟨hd, hl, hu⟩ <;> (split_ifs <;> dsimp only <;> omega)

lemma base_at_succ (n : ℕ) : base_at (n + 1) = (base_at n).update :=
  Function.iterate_succ_apply' Base.update n (Base.init 520)

lemma base_inv_at (n : ℕ) : BaseInv (base_at n) := by
  induction n with
  | zero => exact ⟨rfl, Or.inl (by norm_num [base_at, Base.init])⟩
  | succ k ih =>
    rw [base_at_succ]
    exact base_inv_step _ ih

/-- Claim C9: Starting from ground segments at `0` and `WIDTH`: after every
update the two segments are exactly `WIDTH` apart, at most one segment is
repositioned per tick, a segment is teleported to `other.x + WIDTH` exactly
when its (scrolled) offset satisfies `x + WIDTH < 0`, and the two segments
cover the visible interval `[0, WIDTH)` with no seam. -/
theorem base_scroll_invariant (n : ℕ) :
    ((base_at (n + 1)).x1 - (base_at (n + 1)).x2 = 400 ∨
      (base_at (n + 1)).x2 - (base_at (n + 1)).x1 = 400) ∧
    ¬((base_at n).x1 - 3 + 400 < 0 ∧ (base_at n).x2 - 3 + 400 < 0) ∧
    (base_at (n + 1)).x1 =
      (if (base_at n).x1 - 3 + 400 < 0 then (base_at n).x2 - 3 + 400
       else (base_at n).x1 - 3) ∧
    (base_at (n + 1)).x2 =
      (if (base_at n).x2 - 3 + 400 < 0 then (base_at (n + 1)).x1 + 400
       else (base_at n).x2 - 3) ∧
    Set.Ico (0 : ℤ) 400 ⊆
      Set.Ico (base_at (n + 1)).x1 ((base_at (n + 1)).x1 + 400) ∪
      Set.Ico (base_at (n + 1)).x2 ((base_at (n + 1)).x2 + 400) := by
  obtain ⟨hs, hcase⟩ := base_inv_at n
  have hstep : base_at (n + 1) = (base_at n).update := base_at_succ n
  have hinv' : BaseInv (base_at (n + 1)) := hstep ▸ base_inv_step _ ⟨hs, hcase⟩
  refine ⟨?_, ?_, ?_, ?_, ?_⟩
  · rcases hinv'.2 with ⟨hd, _, _⟩ | ⟨hd, _, _⟩
    · exact Or.inr hd
    · exact Or.inl hd
  · rcases hcase with ⟨hd, hl, hu⟩ | ⟨hd, hl, hu⟩ <;> omega
  · rw [hstep, base_update_eq _ hs]
  · rw [hstep, base_update_eq _ hs]
  · intro q hq
    simp only [Set.mem_Ico, Set.mem_union] at hq ⊢
    rcases hinv'.2 with ⟨hd, hl, hu⟩ | ⟨hd, hl, hu⟩ <;> omega

lemma advance_ne_nil {pipes : List Pipe} (h : pipes ≠ []) : advance_pipes pipes ≠ [] := by
  simpa [advance_pipes, List.map_eq_nil_iff] using h

lemma getLast?_some_of_ne_nil {l : List Pipe} (h : l ≠ []) :
    ∃ a, l.getLast? = some a := by
  cases hx : l.getLast? with
  | some a => exact ⟨a, rfl⟩
  | none => exact absurd (List.getLast?_eq_none_iff.mp hx) h

lemma pre_evict_eq (pipes : List Pipe) (r : ℕ) {lp : Pipe}
    (h : (advance_pipes pipes).getLast? = some lp) :
    pre_evict pipes r =
      if lp.x < 200 then advance_pipes pipes ++ [spawn_pipe r]
      else advance_pipes pipes := by
  unfold pre_evict spawn_step
  rw [h]

lemma pre_evict_last (pipes : List Pipe) (r : ℕ) (h : pipes ≠ []) :
    ∃ lq, (pre_evict pipes r).getLast? = some lq ∧ ¬(lq.x + 70 < 0) := by
  obtain ⟨lp, hlp⟩ := getLast?_some_of_ne_nil (advance_ne_nil h)
  by_cases hc : lp.x < 200
  · refine ⟨spawn_pipe r, ?_, by norm_num [spawn_pipe]⟩
    rw [pre_evict_eq pipes r hlp, if_pos hc, List.getLast?_concat]
  · refine ⟨lp, ?_, ?_⟩
    · rw [pre_evict_eq pipes r hlp, if_neg hc, hlp]
    · push_neg at hc ⊢
      linarith

lemma evict_ne_nil_of_last {l : List Pipe} {lq : Pipe} (h : l.getLast? = some lq)
    (hq : ¬(lq.x + 70 < 0)) : evict l ≠ [] := by
  have hmem : lq ∈ l := List.mem_of_mem_getLast? (by simp [h])
  have : lq ∈ evict l := by
    simp [evict, List.mem_filter, Pipe.is_offscreen, hq, hmem]
  exact List.ne_nil_of_mem this

lemma tick_ne_nil (st : List Pipe × ℕ) (r : ℕ) (h : st.1 ≠ []) :
    (tick_pipes st r).1 ≠ [] := by
  obtain ⟨lq, hl, hq⟩ := pre_evict_last st.1 r h
  have h2 : evict (pre_evict st.1 r) ≠ [] := evict_ne_nil_of_last hl hq
  show (score_pipes 80 (evict (pre_evict st.1 r)) st.2).1 ≠ []
  rw [score_pipes_fst]
  simpa [List.map_eq_nil_iff] using h2

lemma pipes_at_ne_nil (seeds : ℕ → ℕ) (n : ℕ) : (pipes_at seeds n).1 ≠ [] := by
  induction n with
  | zero => simp [pipes_at]
  | succ k ih => exact tick_ne_nil _ _ ih

/-- Claim C5: The pipe list is never empty in any reachable `Playing` tick (so
`pipes[-1]` is always in bounds); each tick, after advancing all pipes, a new
pipe is appended at `x = WIDTH` exactly when the last pipe's `x` is below
`WIDTH - 200`; only pipes with `x + PIPE_WIDTH < 0` are removed, and the
newest pipe survives eviction (its `x + PIPE_WIDTH < 0` is false). -/
theorem pipe_field_never_empty (seeds : ℕ → ℕ) (n : ℕ) :
    (pipes_at seeds n).1 ≠ [] ∧
    (∃ lp, (advance_pipes (pipes_at seeds n).1).getLast? = some lp ∧
      pre_evict (pipes_at seeds n).1 (seeds (n + 1)) =
        (if lp.x < 200
         then advance_pipes (pipes_at seeds n).1 ++ [spawn_pipe (seeds (n + 1))]
         else advance_pipes (pipes_at seeds n).1)) ∧
    (spawn_pipe (seeds (n + 1))).x = 400 ∧
    (pipes_at seeds (n + 1)).1 =
      (score_pipes 80
        ((pre_evict (pipes_at seeds n).1 (seeds (n + 1))).filter fun p => !p.is_offscreen)
        (pipes_at seeds n).2).1 ∧
    (∃ lq, (pre_evict (pipes_at seeds n).1 (seeds (n + 1))).getLast? = some lq ∧
      ¬(lq.x + 70 < 0) ∧
      lq ∈ evict (pre_evict (pipes_at seeds n).1 (seeds (n + 1)))) := by
  have hne := pipes_at_ne_nil seeds n
  obtain ⟨lp, hlp⟩ := getLast?_some_of_ne_nil (advance_ne_nil hne)
  obtain ⟨lq, hlq, hq⟩ := pre_evict_last (pipes_at seeds n).1 (seeds (n + 1)) hne
  refine ⟨hne, ⟨lp, hlp, pre_evict_eq _ _ hlp⟩, rfl, rfl, ⟨lq, hlq, hq, ?_⟩⟩
  have hmem : lq ∈ pre_evict (pipes_at seeds n).1 (seeds (n + 1)) :=
    List.mem_of_mem_getLast? (by simp [hlq])
  simp [evict, List.mem_filter, Pipe.is_offscreen, hq, hmem]

/-- Claim C3, counterexample: At bird `y = 212.5` against a pipe with
`gap_y = 150` at `x = 62`, the exact square-vs-rectangle test of the claim
reports a (half-pixel) overlap with the bottom pipe, but `check_collision` —
which truncates the rectangle coordinates with `int(...)` — returns false. -/
theorem check_collision_exact_box_counterexample :
    check_collision ⟨80, 425 / 2, 0, 0, true⟩ [⟨62, 150, false⟩] = false ∧
    collides_spec ⟨80, 425 / 2, 0, 0, true⟩ [⟨62, 150, false⟩] := by
  constructor
  · simp only [check_collision, Bird.rect, Pipe.top_rect, Pipe.bottom_rect,
      List.any_cons, List.any_nil]
    norm_num [pyInt, PgRect.colliderect]
  · refine Or.inr (Or.inr ⟨⟨62, 150, false⟩, by simp, Or.inr ⟨?_, ?_, ?_, ?_⟩⟩) <;>
      norm_num

lemma colliderect_pos {a c : PgRect} (haw : 0 < a.w) (hah : 0 < a.h)
    (hcw : 0 < c.w) (hch : 0 < c.h) :
    (a.colliderect c = true) ↔
      (a.x < c.x + c.w ∧ c.x < a.x + a.w ∧ a.y < c.y + c.h ∧ c.y < a.y + a.h) := by
  unfold PgRect.colliderect
  rw [if_neg (by simp only [not_or]; exact ⟨by omega, by omega, by omega, by omega⟩)]
  simp only [Bool.and_eq_true, decide_eq_true_eq]
  omega

/-- Claim C3, amended: `check_collision` returns true iff the ceiling or floor
check fires, or the bird's integer-truncated box — anchored at
`(int(x - RADIUS), int(y - RADIUS))` with sides `2·RADIUS` — strictly
overlaps some pipe's integer-truncated top or bottom rectangle (pipes with
positive rectangle heights, as every spawned pipe has). -/
theorem check_collision_truncated_characterization (b : Bird) (pipes : List Pipe)
    (hp : ∀ p ∈ pipes, 0 < p.top_rect.h ∧ 0 < p.bottom_rect.h) :
    (check_collision b pipes = true) ↔
      (b.y - 18 ≤ 0 ∨ b.y + 18 ≥ 520 ∨
       ∃ p ∈ pipes,
         (pyInt (b.x - 18) < pyInt p.x + 70 ∧ pyInt p.x < pyInt (b.x - 18) + 36 ∧
           pyInt (b.y - 18) < pyInt (p.gap_y - 80) ∧ 0 < pyInt (b.y - 18) + 36) ∨
         (pyInt (b.x - 18) < pyInt p.x + 70 ∧ pyInt p.x < pyInt (b.x - 18) + 36 ∧
           pyInt (b.y - 18) < 520 ∧ pyInt (p.gap_y + 80) < pyInt (b.y - 18) + 36)) := by
  have hbw : 0 < (Bird.rect b).w := by norm_num [Bird.rect]
  have hbh : 0 < (Bird.rect b).h := by norm_num [Bird.rect]
  unfold check_collision
  split_ifs with hbound
  · constructor
    · intro _
      rcases hbound with h | h
      · exact Or.inl h
      · exact Or.inr (Or.inl h)
    · intro _
      rfl
  · push_neg at hbound
    rw [List.any_eq_true]
    constructor
    · rintro ⟨p, hmem, hcol⟩
      refine Or.inr (Or.inr ⟨p, hmem, ?_⟩)
      obtain ⟨ht, hb2⟩ := hp p hmem
      rw [Bool.or_eq_true] at hcol
      rcases hcol with h | h
      · left
        rw [colliderect_pos hbw hbh (by norm_num [Pipe.top_rect]) ht] at h
        dsimp only [Bird.rect, Pipe.top_rect] at h ⊢
        omega
      · right
        rw [colliderect_pos hbw hbh (by norm_num [Pipe.bottom_rect]) hb2] at h
        dsimp only [Bird.rect, Pipe.bottom_rect] at h ⊢
        omega
    · rintro (h | h | ⟨p, hmem, hor⟩)
      · exact absurd h (not_le.mpr hbound.1)
      · exact absurd h (not_le.mpr hbound.2)
      · refine ⟨p, hmem, ?_⟩
        obtain ⟨ht, hb2⟩ := hp p hmem
        rw [Bool.or_eq_true]
        rcases hor with h | h
        · left
          rw [colliderect_pos hbw hbh (by norm_num [Pipe.top_rect]) ht]
          dsimp only [Bird.rect, Pipe.top_rect]
          omega
        · right
          rw [colliderect_pos hbw hbh (by norm_num [Pipe.bottom_rect]) hb2]
          dsimp only [Bird.rect, Pipe.bottom_rect]
          omega

/-- Witness for `check_collision_truncated_characterization` at a concrete
bird and pipe. -/
theorem check_collision_truncated_characterization_witness :
    (∀ p ∈ [(⟨100, 200, false⟩ : Pipe)], 0 < p.top_rect.h ∧ 0 < p.bottom_rect.h) ∧
    ((check_collision ⟨80, 300, 0, 0, true⟩ [⟨100, 200, false⟩] = true) ↔
      ((300 : ℚ) - 18 ≤ 0 ∨ (300 : ℚ) + 18 ≥ 520 ∨
       ∃ p ∈ [(⟨100, 200, false⟩ : Pipe)],
         (pyInt ((80 : ℚ) - 18) < pyInt p.x + 70 ∧
           pyInt p.x < pyInt ((80 : ℚ) - 18) + 36 ∧
           pyInt ((300 : ℚ) - 18) < pyInt (p.gap_y - 80) ∧
           0 < pyInt ((300 : ℚ) - 18) + 36) ∨
         (pyInt ((80 : ℚ) - 18) < pyInt p.x + 70 ∧
           pyInt p.x < pyInt ((80 : ℚ) - 18) + 36 ∧
           pyInt ((300 : ℚ) - 18) < 520 ∧
           pyInt (p.gap_y + 80) < pyInt ((300 : ℚ) - 18) + 36))) :=
  ⟨by
    intro p hp
    simp only [List.mem_singleton] at hp
    subst hp
    norm_num [Pipe.top_rect, Pipe.bottom_rect, pyInt],
   check_collision_truncated_characterization ⟨80, 300, 0, 0, true⟩ [⟨100, 200, false⟩]
    (by
      intro p hp
      simp only [List.mem_singleton] at hp
      subst hp
      norm_num [Pipe.top_rect, Pipe.bottom_rect, pyInt])⟩

lemma scored_behind_after_score (l : List Pipe) (s : ℕ) :
    scored_behind 80 (score_pipes 80 l s).1 = true := by
  rw [scored_behind, score_pipes_fst, List.all_map, List.all_eq_true]
  intro p _
  by_cases h : p.x + 70 < 80 <;> simp [h, Function.comp]

lemma scored_behind_at (seeds : ℕ → ℕ) (n : ℕ) :
    scored_behind 80 (pipes_at seeds n).1 = true := by
  cases n with
  | zero =>
    show scored_behind 80 [spawn_pipe (seeds 0)] = true
    rw [scored_behind, List.all_eq_true]
    intro p hp
    simp only [List.mem_singleton] at hp
    subst hp
    have : ¬ ((spawn_pipe (seeds 0)).x + 70 < 80) := by norm_num [spawn_pipe]
    simp [this]
  | succ k => exact scored_behind_after_score _ _

/-- Claim C10: In every reachable state of the game loop, any pipe eligible for
eviction (`x + PIPE_WIDTH < 0`, i.e. `is_offscreen`) in the post-advance,
post-spawn list already has `passed = true`: eviction never discards an
unscored pipe. -/
theorem eviction_only_removes_passed (seeds : ℕ → ℕ) (n : ℕ) :
    (pre_evict (pipes_at seeds n).1 (seeds (n + 1))).all
      (fun p => !p.is_offscreen || p.passed) = true := by
  have hJ := scored_behind_at seeds n
  rw [scored_behind, List.all_eq_true] at hJ
  rw [List.all_eq_true]
  intro p hp
  have hmem : p ∈ advance_pipes (pipes_at seeds n).1 ∨ p = spawn_pipe (seeds (n + 1)) := by
    obtain ⟨lp, hlp⟩ := getLast?_some_of_ne_nil (advance_ne_nil (pipes_at_ne_nil seeds n))
    rw [pre_evict_eq _ _ hlp] at hp
    split_ifs at hp with hc
    · rcases List.mem_append.mp hp with h | h
      · exact Or.inl h
      · exact Or.inr (List.mem_singleton.mp h)
    · exact Or.inl hp
  rcases hmem with h | h
  · obtain ⟨q, hq, rfl⟩ := List.mem_map.mp h
    by_cases hoff : (Pipe.update q).x + 70 < 0
    · have hqx : q.x + 70 < 80 := by
        have h3 : q.x - 3 + 70 < 0 := hoff
        linarith
      have hpassed := hJ q hq
      rw [Bool.or_eq_true] at hpassed
      rcases hpassed with hfalse | hpassed
      · have hfalse' : decide (q.x + 70 < 80) = false := by simpa using hfalse
        exact absurd hqx (of_decide_eq_false hfalse')
      · have hup : (Pipe.update q).passed = true := hpassed
        simp [hup]
    · simp [Pipe.is_offscreen, hoff]
  · subst h
    have : ¬ ((spawn_pipe (seeds (n + 1))).x + 70 < 0) := by norm_num [spawn_pipe]
    simp [Pipe.is_offscreen, this]

end FlappyBird
